import Mathlib

/-!
Verification of the concurrency and resource-management core of a local
LLM assistant server: the function (tool) registry
(src/services/function_service.py), the token stream bridge
(src/services/generation_service.py), the document cache
(src/utils/cache_manager.py) and the file store
(src/utils/file_manager.py), shallowly embedded in Lean.

Python dictionaries are modelled as association lists in insertion
order, Python exceptions as `Except` values, and external collaborators
(the filesystem, the diskcache backend, hash functions from `hashlib`)
as explicit parameters or fault-injection flags.
-/

set_option autoImplicit false

namespace LocalAssistant

/-! ## Function registry (src/services/function_service.py)

A handler is a Python callable: it has a signature (the list of keyword
parameter names it accepts, plus possibly a `**kwargs` catch-all), and a
body that either returns a value or raises (modelled as `Except`, the
error being the exception message). `execute` dispatches the argument
dict with `handler(**arguments)`: Python raises `TypeError` at the call
site when an argument name is not in the signature and there is no
`**kwargs`, before the body runs. -/

/-- One parameter of a function schema: `{type, description, required, enum?}`. -/
structure ParamDef where
  type : String := "string"
  description : String := ""
  required : Bool := false
  enum : Option (List String) := none
deriving Repr, DecidableEq

/-- A registered handler: its keyword signature and its body.
The body returns `Except.error msg` when the Python handler raises an
exception with message `msg`. Sync and async handlers behave identically
with respect to results, so both branches of the source's
`iscoroutinefunction` test are modelled by the single `run` field. -/
structure Handler (α : Type) where
  sigParams : List String
  acceptsVarKw : Bool
  run : List (String × α) → Except String α

/-- A `FunctionDefinition` entry as stored by `FunctionRegistry.register`. -/
structure FunctionDef (α : Type) where
  name : String
  description : String
  parameters : List (String × ParamDef)
  handler : Handler α

/-- The registry's `self.functions` dict: name → definition, insertion order. -/
def FunctionRegistry (α : Type) := List (String × FunctionDef α)

/-- Python `TypeError` message raised by `handler(**arguments)` for an
argument name not in the handler's signature (the function-name part of
CPython's message is elided). -/
def unexpectedKwMsg (k : String) : String :=
  "got an unexpected keyword argument \x27" ++ k ++ "\x27"

/-- `handler(**arguments)`: if some argument key is not a parameter of the
handler and the handler has no `**kwargs`, Python raises `TypeError`
without entering the body; otherwise the body runs. The second component
counts how many times the handler body was invoked. -/
def callHandler {α : Type} (h : Handler α) (args : List (String × α)) :
    Except String α × Nat :=
  if h.acceptsVarKw then (h.run args, 1)
  else
    match args.find? (fun kv => !(h.sigParams.contains kv.1)) with
    | some kv => (Except.error (unexpectedKwMsg kv.1), 0)
    | none => (h.run args, 1)

/-- Result value of `FunctionRegistry.execute`: the dict
`{success, error?, result?}`. -/
structure ExecResult (α : Type) where
  success : Bool
  error : Option String := none
  result : Option α := none
deriving Repr, DecidableEq

/-- The validation loop of `execute`: the first parameter in schema order
that is flagged required but absent from `arguments`. -/
def findMissingRequired {α : Type} (params : List (String × ParamDef))
    (args : List (String × α)) : Option String :=
  (params.find? (fun pd => pd.2.required && !(args.any (fun kv => kv.1 = pd.1)))).map
    (fun pd => pd.1)

/-- `FunctionRegistry.execute(name, arguments)`. Returns the structured
result together with the number of handler-body invocations (0 or 1),
so that "the handler is never invoked" is expressible. The Python
`try/except` around validation and dispatch is the `Except`-to-result
conversion in the last two cases: `execute` itself is a total function,
it never propagates an exception. -/
def execute {α : Type} (reg : FunctionRegistry α) (name : String)
    (args : List (String × α)) : ExecResult α × Nat :=
  match reg.find? (fun kv => kv.1 = name) with
  | none =>
      ({ success := false
         error := some ("Function \x27" ++ name ++ "\x27 not found") }, 0)
  | some (_, func) =>
      match findMissingRequired func.parameters args with
      | some p =>
          ({ success := false
             error := some ("Missing required parameter: " ++ p) }, 0)
      | none =>
          match callHandler func.handler args with
          | (Except.error e, n) => ({ success := false, error := some e }, n)
          | (Except.ok r, n) => ({ success := true, result := some r }, n)

/-! ## File store (src/utils/file_manager.py)

The filesystem is external: the upload directory's contents are an
explicit list of `StoredFile` records in scan order, wall-clock time an
explicit parameter, and `hashlib.md5` an explicit function parameter.
Whether `unlink` succeeds on a given file is an external fact recorded
on the record (`unlinkOk`). -/

/-- Core of Python regex `\w` with `re.UNICODE`: a word character
(alphanumeric or underscore; modelled on its ASCII-and-letter core). -/
def pyWordChar (c : Char) : Bool := c.isAlphanum || c = '_'

/-- Core of Python regex `\s`: whitespace. -/
def pySpaceChar (c : Char) : Bool :=
  c = ' ' || c = '\t' || c = '\n' || c = '\r' || c = '\x0b' || c = '\x0c'

/-- The character class kept by `re.sub(r'[^\w\s\-\.]', '', filename)`:
word characters, whitespace, hyphen, dot. -/
def keepChar (c : Char) : Bool :=
  pyWordChar c || pySpaceChar c || c = '-' || c = '.'

/-- Python `str.lower()`, modelled character by character (ASCII core). -/
def strLower (s : String) : String := String.mk (s.data.map Char.toLower)

/-- `pathlib.Path(filename).name`: the last path component, after
dropping empty components and `.` components (POSIX rules, `/` is the
only separator). -/
def pathName (s : String) : String :=
  String.mk ((((s.data.splitOn '/').filter
    (fun c => c != ([] : List Char) && c != ['.'])).getLast?).getD [])

/-- Python `s.rsplit(sep='.', maxsplit=1)` on a list of characters,
returning (before-last-dot, after-last-dot). Only meaningful when a dot
occurs. -/
def rsplitLastDot (l : List Char) : List Char × List Char :=
  let ext := (l.reverse.takeWhile (fun c => c != '.')).reverse
  (l.take (l.length - (ext.length + 1)), ext)

/-- The length-limiting step of `_sanitize_filename`: when the cleaned
name exceeds 200 characters, `name, ext = filename.rsplit('.', 1)` and
`filename = name[:195] + ('.' + ext if ext else '')`. -/
def sanitizeCore (f2 : List Char) : List Char :=
  if f2.length > 200 then
    if f2.contains '.' then
      (rsplitLastDot f2).1.take 195 ++
        (if (rsplitLastDot f2).2.isEmpty then [] else '.' :: (rsplitLastDot f2).2)
    else f2.take 195
  else f2

/-- `FileManager._sanitize_filename`: strip directory components
(`Path(filename).name`), keep only the safe character class
(`re.sub(r'[^\w\s\-\.]', '', ...)`), then limit the length. -/
def _sanitize_filename (filename : String) : String :=
  String.mk (sanitizeCore ((pathName filename).data.filter keepChar))

/-- `FileManager.save_file` (persist): the stored unique file name and
the stored path. `md5hex` stands for `hashlib.md5(...).hexdigest` and
`timestamp` for `datetime.now().strftime("%Y%m%d_%H%M%S")`, both
external to the core logic. -/
def save_file (upload_dir : String) (md5hex : List Nat → String)
    (timestamp : String) (file_content : List Nat) (filename : String) :
    String × String :=
  let file_hash := (md5hex file_content).take 8
  let safe_filename := _sanitize_filename filename
  let unique_filename := timestamp ++ "_" ++ file_hash ++ "_" ++ safe_filename
  (unique_filename, upload_dir ++ "/" ++ unique_filename)

/-- The configuration state built by `FileManager.__init__`. -/
structure FileManagerState where
  upload_dir : String
  max_size_bytes : Nat
  allowed_extensions : List String

/-- `FileManager.__init__(upload_dir, max_size_mb, allowed_extensions)`:
the allow-list is lowercased once at construction. -/
def mkFileManager (upload_dir : String) (max_size_mb : Nat)
    (allowed : List String) : FileManagerState :=
  { upload_dir := upload_dir
    max_size_bytes := max_size_mb * 1024 * 1024
    allowed_extensions := allowed.map strLower }

/-- The extension extracted by `validate_file`:
`filename.rsplit('.', 1)[-1].lower() if '.' in filename else ''`. -/
def extOf (filename : String) : String :=
  if filename.data.contains '.' then
    String.mk ((rsplitLastDot filename.data).2.map Char.toLower)
  else ""

/-- `FileManager.validate_file(filename, file_size)`: size ceiling first,
then case-insensitive extension allow-list. (The numeric formatting of
the size message is elided.) -/
def validate_file (fm : FileManagerState) (filename : String)
    (file_size : Nat) : Bool × Option String :=
  if file_size > fm.max_size_bytes then
    (false, some "File size exceeds limit")
  else if !(fm.allowed_extensions.contains (extOf filename)) then
    (false, some ("File type ." ++ extOf filename ++ " not supported"))
  else (true, none)

/-- One entry of the upload directory as seen by
`cleanup_old_files`: its name, last-modified time (epoch seconds),
whether it is a regular file, and whether `unlink` would succeed on it
(an external filesystem fact). -/
structure StoredFile where
  name : String
  mtime : Int
  isFile : Bool
  unlinkOk : Bool
deriving Repr, DecidableEq

/-- The condition under which `cleanup_old_files` deletes an entry:
a regular file whose modification time precedes the cutoff. -/
def isOldFile (cutoff : Int) (f : StoredFile) : Bool :=
  f.isFile && decide (f.mtime < cutoff)

/-- The `for file_path in self.upload_dir.glob('*')` loop. The whole
loop is wrapped in a single `try/except`, so a failed `unlink` ends the
scan: the failing entry and every entry after it are left untouched and
the count accumulated so far is returned. -/
def cleanupLoop (cutoff : Int) : List StoredFile → Nat × List StoredFile
  | [] => (0, [])
  | f :: rest =>
    if f.isFile then
      if f.mtime < cutoff then
        if f.unlinkOk then
          let r := cleanupLoop cutoff rest
          (r.1 + 1, r.2)
        else (0, f :: rest)
      else
        let r := cleanupLoop cutoff rest
        (r.1, f :: r.2)
    else
      let r := cleanupLoop cutoff rest
      (r.1, f :: r.2)

/-- `FileManager.cleanup_old_files(max_age_hours)`: cutoff is
`datetime.now() - timedelta(hours=max_age_hours)`. Returns the deletion
count and the directory contents afterwards. -/
def cleanup_old_files (now : Int) (max_age_hours : Int)
    (files : List StoredFile) : Nat × List StoredFile :=
  cleanupLoop (now - max_age_hours * 3600) files

/-! ## Document cache (src/utils/cache_manager.py)

The diskcache backend is an external collaborator: its store is a list
of `key ↦ (value, expiry time)` entries, and the I/O exceptions it may
raise are modelled by per-operation fault flags. The `hashlib` digests
are function parameters. -/

/-- The filesystem as seen by `_generate_key`: path → file bytes, `none`
when opening or reading the file raises. -/
def FileSystem := String → Option (List Nat)

/-- `CacheManager._generate_key(file_path)`: `doc_` + SHA-256 of the
file's bytes; on a read failure, fall back to `doc_` + MD5 of the path
string. `sha256hex` and `md5hex` stand for the hashlib hex digests. -/
def _generate_key (sha256hex : List Nat → String) (md5hex : String → String)
    (fs : FileSystem) (file_path : String) : String :=
  match fs file_path with
  | some bytes => "doc_" ++ sha256hex bytes
  | none => "doc_" ++ md5hex file_path

/-- The `diskcache.Cache` backend: entries plus fault-injection flags
for the I/O exceptions each operation may raise. -/
structure DiskCache (V : Type) where
  entries : List (String × V × Int)
  failGet : Bool := false
  failSet : Bool := false
  failExpire : Bool := false
  failClear : Bool := false
  failStats : Bool := false

/-- `diskcache.Cache.get(key)` at time `now`: `none` for an absent or
expired entry (the library treats an expired entry as a miss);
`Except.error` when the backend raises. -/
def diskGet {V : Type} (c : DiskCache V) (now : Int) (key : String) :
    Except String (Option V) :=
  if c.failGet then Except.error "disk I/O error"
  else
    match c.entries.find? (fun e => e.1 = key) with
    | some e => if now < e.2.2 then Except.ok (some e.2.1) else Except.ok none
    | none => Except.ok none

/-- `diskcache.Cache.set(key, value, expire)`: last write wins. -/
def diskSet {V : Type} (c : DiskCache V) (now : Int) (key : String) (v : V)
    (expire : Int) : Except String (DiskCache V) :=
  if c.failSet then Except.error "disk I/O error"
  else Except.ok { c with entries :=
    (key, v, now + expire) :: c.entries.filter (fun e => e.1 != key) }

/-- `diskcache.Cache.expire()`: physically drop expired entries. -/
def diskExpire {V : Type} (c : DiskCache V) (now : Int) :
    Except String (DiskCache V) :=
  if c.failExpire then Except.error "disk I/O error"
  else Except.ok { c with entries := c.entries.filter (fun e => now < e.2.2) }

/-- `diskcache.Cache.clear()`. -/
def diskClear {V : Type} (c : DiskCache V) : Except String (DiskCache V) :=
  if c.failClear then Except.error "disk I/O error"
  else Except.ok { c with entries := [] }

/-- The `CacheManager` object: the backend plus the TTL fixed at
construction (`ttl_hours * 3600`). -/
structure CacheManager (V : Type) where
  cache : DiskCache V
  ttl_seconds : Int

/-- The `{size, volume?, error?}` dict returned by `get_stats` (the
directory field, pure configuration, is elided). -/
structure CacheStats where
  size : Nat
  error : Option String := none
deriving Repr, DecidableEq

/-- `CacheManager.get(file_path)`: the `try/except` catches every
backend exception and degrades to a miss (`None`). -/
def CacheManager.get {V : Type} (sha256hex : List Nat → String)
    (md5hex : String → String) (fs : FileSystem) (cm : CacheManager V)
    (now : Int) (file_path : String) : Option V :=
  match diskGet cm.cache now (_generate_key sha256hex md5hex fs file_path) with
  | Except.ok v => v
  | Except.error _ => none

/-- `CacheManager.set(file_path, processed_data)`: on a backend failure
the exception is caught and caching is skipped (state unchanged). -/
def CacheManager.set {V : Type} (sha256hex : List Nat → String)
    (md5hex : String → String) (fs : FileSystem) (cm : CacheManager V)
    (now : Int) (file_path : String) (v : V) : CacheManager V :=
  match diskSet cm.cache now (_generate_key sha256hex md5hex fs file_path)
      v cm.ttl_seconds with
  | Except.ok c => { cm with cache := c }
  | Except.error _ => cm

/-- `CacheManager.clear_expired()`: a backend failure is caught and the
state left unchanged. -/
def CacheManager.clear_expired {V : Type} (cm : CacheManager V) (now : Int) :
    CacheManager V :=
  match diskExpire cm.cache now with
  | Except.ok c => { cm with cache := c }
  | Except.error _ => cm

/-- `CacheManager.clear_all()`: a backend failure is caught and the
state left unchanged. -/
def CacheManager.clear_all {V : Type} (cm : CacheManager V) : CacheManager V :=
  match diskClear cm.cache with
  | Except.ok c => { cm with cache := c }
  | Except.error _ => cm

/-- `CacheManager.get_stats()`: on a backend failure returns the zeroed
dict carrying the error message instead of raising. -/
def CacheManager.get_stats {V : Type} (cm : CacheManager V) : CacheStats :=
  if cm.cache.failStats then { size := 0, error := some "disk I/O error" }
  else { size := cm.cache.entries.length }

/-! ## Token stream bridge (src/services/generation_service.py)

`create_token_generator` is an async generator. Its yields are modelled
structurally: the opening literal `{"id": …, "choices": [`, the comma
separators, the JSON chunks built by `_create_token_chunk`, and the
closing literal `], "finish_reason": "stop"}`. The producer (the
`TextIteratorStreamer` fed by the generation thread) is external; a run
is parametrised by the token sequence it emits. Cancellation is
modelled by a step script: the generator body as an alternation of
yields and lifecycle actions, executed lazily by the consumer, with
`GeneratorExit` unwinding (the `with`-block's `finally`, then the
`except DISCONNECTION_EXCEPTIONS` clause) applied at the suspension
point when the consumer closes the generator. -/

/-- One item yielded by `create_token_generator`. -/
inductive StreamItem where
  | opening (id : String)
  | sep
  | chunk (index : Nat) (content : String) (finishReason : Option String)
  | terminal (finishReason : String)
deriving Repr, DecidableEq

/-- `GENERATION_THREAD_TIMEOUT = 1.0` (seconds). -/
def GENERATION_THREAD_TIMEOUT : ℚ := 1

/-- The `DISCONNECTION_EXCEPTIONS` tuple (exception class names). -/
def DISCONNECTION_EXCEPTIONS : List String :=
  ["ConnectionResetError", "ConnectionAbortedError", "BrokenPipeError",
   "GeneratorExit"]

/-- `_create_token_chunk(index, content, finish_reason=None)`. -/
def _create_token_chunk (index : Nat) (content : String)
    (finishReason : Option String := none) : StreamItem :=
  StreamItem.chunk index content finishReason

/-- The streaming loop `for index, token in enumerate(streamer)`: a
comma separator before every chunk except the first (`if index > 0`). -/
def chunkItems (tokens : List String) : List StreamItem :=
  tokens.enum.flatMap (fun p =>
    (if p.1 > 0 then [StreamItem.sep] else []) ++ [_create_token_chunk p.1 p.2])

/-- `create_token_generator` on a producer that emits exactly `tokens`
and then completes normally: the whole yielded sequence, in order. -/
def create_token_generator (stream_id : String) (tokens : List String) :
    List StreamItem :=
  StreamItem.opening stream_id :: chunkItems tokens ++
    [StreamItem.terminal "stop"]

/-- Projection selecting the chunk records of an item sequence. -/
def chunkProj : StreamItem → Option (Nat × String × Option String)
  | StreamItem.chunk i c f => some (i, c, f)
  | _ => none

/-- The chunk records of an item sequence, in order. -/
def chunksOf (out : List StreamItem) : List (Nat × String × Option String) :=
  out.filterMap chunkProj

/-- Projection selecting the terminal records of an item sequence. -/
def termProj : StreamItem → Option String
  | StreamItem.terminal f => some f
  | _ => none

/-- The terminal records of an item sequence, in order. -/
def terminalsOf (out : List StreamItem) : List String :=
  out.filterMap termProj

/-- Lifecycle actions of the bridge besides yielding. `joinThread t`
is the `finally` of `_managed_generation_thread`: join the generation
thread, waiting at most `t` seconds, if it is still alive. -/
inductive Action where
  | startThread
  | joinThread (timeout : ℚ)
  | logDisconnect
  | stopStreamer
deriving Repr, DecidableEq

/-- One step of the generator body: an internal action, or a yield
tagged with whether it occurs inside the `with
_managed_generation_thread(...)` block. -/
inductive GenStep where
  | act (a : Action)
  | yieldItem (item : StreamItem) (insideWith : Bool)
deriving Repr, DecidableEq

/-- The body of `create_token_generator` as a step script: yield the
opening literal; enter the `with` (starting the generation thread);
yield separators and chunks from inside the `with`; leave the `with`
(its `finally` joins the thread with the bounded timeout); yield the
closing literal. -/
def generatorScript (stream_id : String) (tokens : List String) :
    List GenStep :=
  GenStep.yieldItem (StreamItem.opening stream_id) false
    :: GenStep.act Action.startThread
    :: ((chunkItems tokens).map (fun it => GenStep.yieldItem it true) ++
      [GenStep.act (Action.joinThread GENERATION_THREAD_TIMEOUT),
       GenStep.yieldItem (StreamItem.terminal "stop") false])

/-- Lazy delivery of `m` items to the consumer: the items yielded, the
actions performed (code between two yields runs only when the consumer
requests the next item), and the `insideWith` tag of the yield at which
the generator is left suspended (`none` when it ran to completion, or
was closed before its first resumption). -/
def deliver : List GenStep → Nat → Option Bool →
    List StreamItem × List Action × Option Bool
  | _, 0, cur => ([], [], cur)
  | [], _ + 1, _ => ([], [], none)
  | GenStep.act a :: rest, m + 1, cur =>
      let r := deliver rest (m + 1) cur
      (r.1, a :: r.2.1, r.2.2)
  | GenStep.yieldItem it inW :: rest, m + 1, _ =>
      let r := deliver rest m (some inW)
      (it :: r.1, r.2.1, r.2.2)

/-- Unwinding when the consumer closes the generator: `GeneratorExit`
is thrown at the suspended yield; if that yield is inside the `with`,
its `finally` joins the thread (bounded wait) first; then the `except
DISCONNECTION_EXCEPTIONS` clause — `GeneratorExit` is in that tuple —
logs the disconnect and stops the streamer, and nothing is re-raised to
the caller. Returns the teardown actions and the exception that
escapes, if any. -/
def closeActions (sus : Option Bool) : List Action × Option String :=
  match sus with
  | none => ([], none)
  | some inW =>
      let fin := if inW then [Action.joinThread GENERATION_THREAD_TIMEOUT]
        else []
      if DISCONNECTION_EXCEPTIONS.contains "GeneratorExit" then
        (fin ++ [Action.logDisconnect, Action.stopStreamer], none)
      else (fin, some "GeneratorExit")

/-- A cancelled stream session: the items the consumer saw, the
lifecycle actions performed, and the exception raised to the caller
(if any). -/
structure CancelledRun where
  emitted : List StreamItem
  actions : List Action
  raised : Option String
deriving Repr, DecidableEq

/-- The bridge when the consumer consumes `m` items and then closes the
generator (client disconnect). -/
def run_cancelled (stream_id : String) (tokens : List String) (m : Nat) :
    CancelledRun :=
  let d := deliver (generatorScript stream_id tokens) m none
  let c := closeActions d.2.2
  { emitted := d.1, actions := d.2.1 ++ c.1, raised := c.2 }

/-- The number of items a consumer has taken when it stops after the
`K`-th token: the opening item, then separators and chunks up to and
including the `K`-th chunk (`2K` items for `K ≥ 1`, one item — just the
opening — for `K = 0`). -/
def itemsConsumedForTokens (K : Nat) : Nat := if K = 0 then 1 else 2 * K

/-! ### Demo registry used by the witness theorems -/

/-- A handler over `Nat` arguments whose body always raises `boom`. -/
def demoRaisingHandler : Handler Nat :=
  { sigParams := ["x"], acceptsVarKw := false
    run := fun _ => Except.error "boom" }

/-- A well-behaved echo handler accepting only the parameter `text`. -/
def demoEchoHandler : Handler Nat :=
  { sigParams := ["text"], acceptsVarKw := false
    run := fun args => Except.ok ((args.find? (fun kv => kv.1 = "text")).map
      (fun kv => kv.2) |>.getD 0) }

/-- Definition entry for the raising handler, with `x` required. -/
def demoRaisingDef : FunctionDef Nat :=
  { name := "bomb", description := "always raises"
    parameters := [("x", { required := true })]
    handler := demoRaisingHandler }

/-- Definition entry for the echo handler, with `text` required. -/
def demoEchoDef : FunctionDef Nat :=
  { name := "echo", description := "echoes text"
    parameters := [("text", { required := true })]
    handler := demoEchoHandler }

/-- A two-entry registry used by concrete witnesses. -/
def demoRegistry : FunctionRegistry Nat :=
  [("bomb", demoRaisingDef), ("echo", demoEchoDef)]

end LocalAssistant

namespace LocalAssistant

/-! ## Theorems about the function registry -/

/-- **C1.** `FunctionRegistry.execute` never raises: it is a total function
into structured results. If no function is registered under `name` it
returns `success := false` with an error message containing `not found`,
with zero handler-body invocations; and whenever the dispatched call
raises (`callHandler` produces `Except.error e`, covering both an
exception from the handler body and the keyword-dispatch `TypeError`),
`execute` catches it and returns `{success := false, error := e}`. -/
theorem C1_execute_never_raises {α : Type} (reg : FunctionRegistry α)
    (name : String) (args : List (String × α)) :
    (reg.find? (fun kv => kv.1 = name) = none →
      execute reg name args =
        ({ success := false
           error := some ("Function \x27" ++ name ++ "\x27 not found") }, 0) ∧
      ∃ msg, (execute reg name args).1.error = some msg ∧
        List.IsInfix ("not found").data msg.data) ∧
    (∀ nm func, reg.find? (fun kv => kv.1 = name) = some (nm, func) →
      findMissingRequired func.parameters args = none →
      ∀ e n, callHandler func.handler args = (Except.error e, n) →
        (execute reg name args).1 =
          { success := false, error := some e, result := none }) := by
  constructor
  · intro h
    refine ⟨by simp [execute, h], ?_⟩
    refine ⟨"Function \x27" ++ name ++ "\x27 not found", by simp [execute, h], ?_⟩
    refine ⟨("Function \x27" ++ name ++ "\x27").data ++ [' '], [], ?_⟩
    simp [String.data_append]
  · intro nm func hfind hmiss e n hcall
    simp [execute, hfind, hmiss, hcall]

/-- **C1 witness**: executing the name `ghost`, absent from the demo
registry, yields the structured not-found failure; executing `bomb`,
whose handler raises `boom`, yields `{success := false, error := boom}`. -/
theorem C1_execute_never_raises_witness :
    execute demoRegistry "ghost" [("x", 1)] =
      ({ success := false
         error := some ("Function \x27ghost\x27 not found") }, 0) ∧
    (execute demoRegistry "bomb" [("x", 1)]).1 =
      { success := false, error := some "boom", result := none } :=
  ⟨(C1_execute_never_raises demoRegistry "ghost" [("x", 1)]).1 rfl |>.1,
   (C1_execute_never_raises demoRegistry "bomb" [("x", 1)]).2
     "bomb" demoRaisingDef rfl rfl "boom" 1 rfl⟩

/-- **C3.** If the registered function has a parameter flagged required
that is absent from the argument mapping, `execute` fails without
invoking the handler body (invocation count 0), and its error names the
first missing required parameter in schema order. -/
theorem C3_missing_required_never_invokes {α : Type} (reg : FunctionRegistry α)
    (name : String) (args : List (String × α)) (nm : String)
    (func : FunctionDef α)
    (hfind : reg.find? (fun kv => kv.1 = name) = some (nm, func))
    (p : String) (pd : ParamDef) (hp : (p, pd) ∈ func.parameters)
    (hreq : pd.required = true)
    (hmiss : ∀ kv ∈ args, kv.1 ≠ p) :
    (execute reg name args).2 = 0 ∧
    (execute reg name args).1.success = false ∧
    ∃ q, findMissingRequired func.parameters args = some q ∧
      (execute reg name args).1.error =
        some ("Missing required parameter: " ++ q) := by
  have hsome : (func.parameters.find?
      (fun pd => pd.2.required && !(args.any (fun kv => kv.1 = pd.1)))).isSome := by
    rw [List.find?_isSome]
    refine ⟨(p, pd), hp, ?_⟩
    simp only [Bool.and_eq_true, hreq, Bool.not_eq_eq_eq_not, Bool.not_true,
      List.any_eq_false, true_and]
    intro kv hkv
    simpa using hmiss kv hkv
  obtain ⟨qd, hqd⟩ := Option.isSome_iff_exists.mp hsome
  have hfm : findMissingRequired func.parameters args = some qd.1 := by
    simp [findMissingRequired, hqd]
  refine ⟨?_, ?_, qd.1, hfm, ?_⟩ <;> simp [execute, hfind, hfm]

/-- **C3 witness**: calling `echo` without its required `text` parameter
fails with the parameter named in the error and zero handler calls. -/
theorem C3_missing_required_never_invokes_witness :
    (execute demoRegistry "echo" [("other", 3)]).2 = 0 ∧
    (execute demoRegistry "echo" [("other", 3)]).1.success = false ∧
    ∃ q, findMissingRequired demoEchoDef.parameters [("other", 3)] = some q ∧
      (execute demoRegistry "echo" [("other", 3)]).1.error =
        some ("Missing required parameter: " ++ q) :=
  C3_missing_required_never_invokes demoRegistry "echo" [("other", 3)]
    "echo" demoEchoDef rfl "text" { required := true } (by simp [demoEchoDef])
    rfl (by decide)

/-- **C10.** Arguments are dispatched as keyword arguments: if every
required parameter is present but some supplied argument name is not in
the handler's signature (and the handler takes no `**kwargs`), `execute`
returns `{success := false}` carrying the `TypeError` message for the
first such argument, the handler body never runs, and nothing is raised
or silently dropped. -/
theorem C10_unexpected_keyword_argument {α : Type} (reg : FunctionRegistry α)
    (name : String) (args : List (String × α)) (nm : String)
    (func : FunctionDef α)
    (hfind : reg.find? (fun kv => kv.1 = name) = some (nm, func))
    (hnomiss : findMissingRequired func.parameters args = none)
    (hvk : func.handler.acceptsVarKw = false)
    (kv : String × α) (hkv : kv ∈ args)
    (hsig : func.handler.sigParams.contains kv.1 = false) :
    (execute reg name args).2 = 0 ∧
    (execute reg name args).1.success = false ∧
    ∃ kw, args.find? (fun kv => !(func.handler.sigParams.contains kv.1)) = some kw ∧
      (execute reg name args).1.error = some (unexpectedKwMsg kw.1) := by
  have hsome : (args.find?
      (fun kv => !(func.handler.sigParams.contains kv.1))).isSome := by
    rw [List.find?_isSome]
    exact ⟨kv, hkv, by rw [Bool.not_eq_true']; exact hsig⟩
  obtain ⟨kw, hkw⟩ := Option.isSome_iff_exists.mp hsome
  have hcall : callHandler func.handler args =
      (Except.error (unexpectedKwMsg kw.1), 0) := by
    unfold callHandler
    rw [hvk, if_neg (by simp), hkw]
  refine ⟨?_, ?_, kw, hkw, ?_⟩ <;> simp [execute, hfind, hnomiss, hcall]

/-- **C10 witness**: calling `echo` with its required `text` plus an
extra argument `color` fails with the `TypeError` message naming
`color`, and the handler body never runs. -/
theorem C10_unexpected_keyword_argument_witness :
    (execute demoRegistry "echo" [("text", 7), ("color", 2)]).2 = 0 ∧
    (execute demoRegistry "echo" [("text", 7), ("color", 2)]).1.success = false ∧
    ∃ kw, ([("text", 7), ("color", 2)] : List (String × Nat)).find?
        (fun kv => !(demoEchoDef.handler.sigParams.contains kv.1)) = some kw ∧
      (execute demoRegistry "echo" [("text", 7), ("color", 2)]).1.error =
        some (unexpectedKwMsg kw.1) :=
  C10_unexpected_keyword_argument demoRegistry "echo"
    [("text", 7), ("color", 2)] "echo" demoEchoDef rfl rfl rfl
    ("color", 2) (by simp) (by decide)

/-! ## Theorems about the file store -/

/-- **C9.** `validate_file` rejects exactly when the size exceeds the
configured ceiling or the (case-insensitively compared) extension is
not in the configured allow-list; when both conditions are met it
returns ok with no reason. -/
theorem C9_validate_file_iff (upload_dir : String) (max_size_mb : Nat)
    (exts : List String) (filename : String) (size : Nat) :
    ((validate_file (mkFileManager upload_dir max_size_mb exts) filename size).1
        = false ↔
      (size > max_size_mb * 1024 * 1024 ∨
        (exts.map strLower).contains (extOf filename) = false)) ∧
    ((validate_file (mkFileManager upload_dir max_size_mb exts) filename size).1
        = true →
      (validate_file (mkFileManager upload_dir max_size_mb exts) filename size).2
        = none) := by
  unfold validate_file mkFileManager
  cases hc : (exts.map strLower).contains (extOf filename) <;>
    by_cases h1 : max_size_mb * 1024 * 1024 < size <;>
    simp [hc, h1]

/-- **C9 witness**: a 5-byte `Doc.PDF` against a 10 MB ceiling and
allow-list `["PDF", "txt"]` validates as ok with no reason. -/
theorem C9_validate_file_iff_witness :
    (validate_file (mkFileManager "uploads" 10 ["PDF", "txt"]) "Doc.PDF" 5).2
      = none :=
  (C9_validate_file_iff "uploads" 10 ["PDF", "txt"] "Doc.PDF" 5).2 (by decide)

/-- Two demo directory entries: both regular files old enough to be
evicted; deleting the first fails, deleting the second would succeed. -/
def demoFileA : StoredFile :=
  { name := "a", mtime := 0, isFile := true, unlinkOk := false }

/-- See `demoFileA`. -/
def demoFileB : StoredFile :=
  { name := "b", mtime := 0, isFile := true, unlinkOk := true }

/-- **C5 counterexample.** With `now = 10000` and a 1-hour age bound,
`demoFileB` is a regular file older than the cutoff whose deletion
would succeed; yet because deleting `demoFileA` (scanned first) fails,
the single `try/except` around the loop aborts the scan: nothing is
deleted, the count is 0 and `demoFileB` survives — contradicting both
"deletes exactly the regular files whose last-modified time precedes
now - maxAge" and "a failure deleting one individual file does not
abort the scan of the remaining files". -/
theorem C5_cleanup_counterexample :
    demoFileB.isFile = true ∧ demoFileB.mtime < 10000 - 1 * 3600 ∧
    demoFileB.unlinkOk = true ∧
    cleanup_old_files 10000 1 [demoFileA, demoFileB] =
      (0, [demoFileA, demoFileB]) := by decide

/-- The scan with no deletion failures deletes exactly the old regular
files and counts them. -/
theorem cleanupLoop_all_ok (cutoff : Int) (files : List StoredFile)
    (h : ∀ f ∈ files, f.unlinkOk = true) :
    cleanupLoop cutoff files =
      ((files.filter (isOldFile cutoff)).length,
       files.filter (fun f => !(isOldFile cutoff f))) := by
  induction files with
  | nil => simp [cleanupLoop]
  | cons f rest ih =>
    have hf : f.unlinkOk = true := h f (by simp)
    have hrest : ∀ g ∈ rest, g.unlinkOk = true := fun g hg => h g (by simp [hg])
    by_cases h1 : f.isFile = true <;> by_cases h2 : f.mtime < cutoff <;>
      simp [cleanupLoop, isOldFile, h1, h2, hf, ih hrest]

/-- A failing deletion ends the scan: everything from the failing entry
on survives, and the count is that of the deletions already made. -/
theorem cleanupLoop_abort (cutoff : Int) (pre : List StoredFile)
    (f : StoredFile) (post : List StoredFile)
    (hpre : ∀ g ∈ pre, g.unlinkOk = true)
    (hold : isOldFile cutoff f = true) (hfail : f.unlinkOk = false) :
    cleanupLoop cutoff (pre ++ f :: post) =
      ((pre.filter (isOldFile cutoff)).length,
       pre.filter (fun g => !(isOldFile cutoff g)) ++ f :: post) := by
  induction pre with
  | nil =>
    have h1 : f.isFile = true := by
      have := hold; simp [isOldFile] at this; exact this.1
    have h2 : f.mtime < cutoff := by
      have := hold; simp [isOldFile] at this; exact this.2
    simp [cleanupLoop, h1, h2, hfail]
  | cons g rest ih =>
    have hg : g.unlinkOk = true := hpre g (by simp)
    have hrest : ∀ x ∈ rest, x.unlinkOk = true := fun x hx => hpre x (by simp [hx])
    by_cases hg1 : g.isFile = true <;> by_cases hg2 : g.mtime < cutoff <;>
      simp [cleanupLoop, isOldFile, hg1, hg2, hg, ih hrest]

/-- **C5 (amended).** `cleanup_old_files` with age bound `maxAge` scans
the store in order. When no individual deletion fails it deletes
exactly the regular files whose last-modified time precedes
`now - maxAge`, retains every newer file and every non-file, and
returns a count equal to the number of files actually deleted. A
failure deleting one individual file is caught (the call still returns
normally, with the count of deletions made so far), but — the
`try/except` wrapping the whole loop — it aborts the scan: the failing
entry and all entries after it are left untouched. -/
theorem C5_cleanup_amended (now max_age_hours : Int)
    (files : List StoredFile) :
    ((∀ f ∈ files, f.unlinkOk = true) →
      cleanup_old_files now max_age_hours files =
        ((files.filter (isOldFile (now - max_age_hours * 3600))).length,
         files.filter (fun f => !(isOldFile (now - max_age_hours * 3600) f)))) ∧
    (∀ pre f post, files = pre ++ f :: post →
      (∀ g ∈ pre, g.unlinkOk = true) →
      isOldFile (now - max_age_hours * 3600) f = true → f.unlinkOk = false →
      cleanup_old_files now max_age_hours files =
        ((pre.filter (isOldFile (now - max_age_hours * 3600))).length,
         pre.filter (fun g => !(isOldFile (now - max_age_hours * 3600) g))
           ++ f :: post)) := by
  constructor
  · intro h
    exact cleanupLoop_all_ok _ files h
  · intro pre f post hsplit hpre hold hfail
    rw [hsplit]
    exact cleanupLoop_abort _ pre f post hpre hold hfail

/-- **C5 (amended) witness**: with entries 2 hours old, 10 minutes old
and an old non-file, a failure-free scan deletes exactly the 2-hour-old
file and returns count 1; and for the demo pair whose first deletion
fails, the scan aborts with count 0, leaving both entries. -/
theorem C5_cleanup_amended_witness :
    cleanup_old_files 36000 1
        [{ name := "old", mtime := 28800, isFile := true, unlinkOk := true },
         { name := "fresh", mtime := 35400, isFile := true, unlinkOk := true },
         { name := "dir", mtime := 0, isFile := false, unlinkOk := true }] =
      (1, [{ name := "fresh", mtime := 35400, isFile := true, unlinkOk := true },
           { name := "dir", mtime := 0, isFile := false, unlinkOk := true }]) ∧
    cleanup_old_files 10000 1 [demoFileA, demoFileB] =
      (0, [demoFileA, demoFileB]) :=
  ⟨(C5_cleanup_amended 36000 1 _).1 (by decide),
   (C5_cleanup_amended 10000 1 [demoFileA, demoFileB]).2 [] demoFileA
     [demoFileB] rfl (by decide) (by decide) (by decide)⟩

/-- A filename whose extension alone is 250 characters long. -/
def demoLongExtName : String := "a." ++ String.mk (List.replicate 250 'b')

set_option maxRecDepth 8000

/-- **C8 counterexample.** Sanitizing `a.bbb…b` (extension of 250 `b`s)
produces a 252-character name: `name[:195] + '.' + ext` re-attaches the
untruncated extension, so the claimed bound of at most 200 characters
fails. -/
theorem C8_sanitize_counterexample :
    200 < (_sanitize_filename demoLongExtName).length := by
  have h : (_sanitize_filename demoLongExtName).length = 252 := by decide
  rw [h]; decide

/-- The length-limiting step never invents characters: every character
it keeps was in the cleaned name (for the dot branch, the dot it
re-attaches is the dot the `contains` test found). -/
theorem sanitizeCore_subset (l : List Char) : sanitizeCore l ⊆ l := by
  intro c hc
  unfold sanitizeCore at hc
  by_cases hlen : l.length > 200
  · rw [if_pos hlen] at hc
    by_cases hdot : l.contains '.' = true
    · rw [if_pos hdot] at hc
      rcases List.mem_append.mp hc with h | h
      · exact List.take_subset _ _ (List.take_subset _ _ h)
      · by_cases hemp : (rsplitLastDot l).2.isEmpty = true
        · rw [if_pos hemp] at h
          exact absurd h (List.not_mem_nil c)
        · rw [if_neg hemp] at h
          rcases List.mem_cons.mp h with rfl | h
          · simpa using hdot
          · have : c ∈ (l.reverse.takeWhile (fun c => c != '.')).reverse := h
            rw [List.mem_reverse] at this
            have := List.takeWhile_subset _ this
            rwa [List.mem_reverse] at this
    · rw [if_neg hdot] at hc
      exact List.take_subset _ _ hc
  · rwa [if_neg hlen] at hc

/-- Every character of a sanitized filename is in the kept class. -/
theorem sanitize_chars (filename : String) :
    ∀ c ∈ (_sanitize_filename filename).data, keepChar c = true := by
  intro c hc
  have hmem : c ∈ (pathName filename).data.filter keepChar :=
    sanitizeCore_subset _ hc
  exact List.of_mem_filter hmem

/-- The length-limiting step keeps the cleaned name at 200 characters,
except that a long extension is re-attached whole: the result is always
at most `max 200 (196 + ext.length)`. -/
theorem sanitizeCore_length (l : List Char) :
    (sanitizeCore l).length ≤ max 200 (196 + (rsplitLastDot l).2.length) := by
  unfold sanitizeCore
  by_cases hlen : l.length > 200
  · rw [if_pos hlen]
    by_cases hdot : l.contains '.' = true
    · rw [if_pos hdot]
      rw [List.length_append]
      have h1 : ((rsplitLastDot l).1.take 195).length ≤ 195 := by
        rw [List.length_take]; exact min_le_left _ _
      by_cases hemp : (rsplitLastDot l).2.isEmpty = true
      · rw [if_pos hemp]
        refine le_max_iff.mpr (Or.inl ?_)
        simp only [List.length_nil]
        omega
      · rw [if_neg hemp]
        refine le_max_iff.mpr (Or.inr ?_)
        simp only [List.length_cons]
        omega
    · rw [if_neg hdot]
      refine le_max_iff.mpr (Or.inl ?_)
      rw [List.length_take]
      exact (min_le_left _ _).trans (by norm_num)
  · rw [if_neg hlen]
    exact le_max_iff.mpr (Or.inl (by omega))

/-- **C8 (amended).** For every filename, the sanitized name contains
only the safe character class (word characters, whitespace, hyphen,
dot) — in particular no `/` or `\` path separator — and the stored
file name has the exact form `<timestamp>_<short-content-hash(8)>_
<sanitized-name>`. The length limit truncates the BASE name to 195
characters but re-attaches the extension whole, so the sanitized name
is bounded by `max 200 (196 + extension length)` — at most 200 only
when the extension is short, not for every input. -/
theorem C8_sanitize_amended (upload_dir : String) (md5hex : List Nat → String)
    (timestamp : String) (content : List Nat) (filename : String) :
    (∀ c ∈ (_sanitize_filename filename).data, keepChar c = true) ∧
    (∀ c ∈ (_sanitize_filename filename).data, c ≠ '/' ∧ c ≠ '\\') ∧
    (save_file upload_dir md5hex timestamp content filename).1 =
      timestamp ++ "_" ++ (md5hex content).take 8 ++ "_" ++
        _sanitize_filename filename ∧
    (_sanitize_filename filename).length ≤
      max 200 (196 +
        (rsplitLastDot ((pathName filename).data.filter keepChar)).2.length) := by
  refine ⟨sanitize_chars filename, ?_, rfl, sanitizeCore_length _⟩
  intro c hc
  have hk := sanitize_chars filename c hc
  constructor <;> rintro rfl <;> exact absurd hk (by decide)

/-- **C8 (amended) witness**: persisting bytes under the traversal
attempt `../secret/doc.pdf` stores exactly
`20260101_000000_01234567_doc.pdf`, and the kept character class
accepts `d`. -/
theorem C8_sanitize_amended_witness :
    keepChar 'd' = true ∧
    (save_file "uploads" (fun _ => "0123456789abcdef") "20260101_000000"
        [1, 2, 3] "../secret/doc.pdf").1 =
      "20260101_000000_01234567_doc.pdf" := by
  have h := C8_sanitize_amended "uploads" (fun _ => "0123456789abcdef")
    "20260101_000000" [1, 2, 3] "../secret/doc.pdf"
  refine ⟨h.1 'd' (by decide), ?_⟩
  rw [h.2.2.1]
  decide

/-! ## Theorems about the document cache -/

/-- **C4.** Cache keys are content-addressed: two readable paths with
equal bytes derive the same key (the content hash, independent of the
path), so a `set` under one path followed by a `get` under the other
within the TTL (and with a healthy backend) is a hit; the key falls
back to a hash of the path string exactly when reading the bytes
fails. -/
theorem C4_content_addressed_key {V : Type} (sha256hex : List Nat → String)
    (md5hex : String → String) (fs : FileSystem) (cm : CacheManager V)
    (p1 p2 : String) (bytes : List Nat)
    (h1 : fs p1 = some bytes) (h2 : fs p2 = some bytes) :
    (_generate_key sha256hex md5hex fs p1 =
        _generate_key sha256hex md5hex fs p2 ∧
      _generate_key sha256hex md5hex fs p1 = "doc_" ++ sha256hex bytes) ∧
    (∀ p, fs p = none →
      _generate_key sha256hex md5hex fs p = "doc_" ++ md5hex p) ∧
    (∀ (v : V) (now now' : Int), cm.cache.failSet = false →
      cm.cache.failGet = false → now' < now + cm.ttl_seconds →
      CacheManager.get sha256hex md5hex fs
        (CacheManager.set sha256hex md5hex fs cm now p1 v) now' p2 = some v) := by
  refine ⟨⟨?_, ?_⟩, ?_, ?_⟩
  · simp [_generate_key, h1, h2]
  · simp [_generate_key, h1]
  · intro p hp
    simp [_generate_key, hp]
  · intro v now now' hset hget htime
    simp [CacheManager.set, CacheManager.get, diskSet, diskGet,
      _generate_key, h1, h2, hset, hget, htime]

/-- The filesystem used by cache witnesses: the same bytes `[7, 7]`
reachable under two different paths, everything else unreadable. -/
def demoFs : FileSystem := fun p =>
  if p = "docs/a.txt" then some [7, 7]
  else if p = "copy/b.txt" then some [7, 7]
  else none

/-- A healthy empty cache with a 24-hour TTL. -/
def demoCache : CacheManager Nat :=
  { cache := { entries := [] }, ttl_seconds := 24 * 3600 }

/-- **C4 witness**: storing value 42 under `docs/a.txt` and reading
under `copy/b.txt` one hour later hits, and an unreadable path uses the
path-hash fallback key. -/
theorem C4_content_addressed_key_witness :
    _generate_key (fun _ => "H") (fun p => p) demoFs "docs/a.txt" =
      _generate_key (fun _ => "H") (fun p => p) demoFs "copy/b.txt" ∧
    _generate_key (fun _ => "H") (fun p => p) demoFs "gone.txt" =
      "doc_" ++ "gone.txt" ∧
    CacheManager.get (fun _ => "H") (fun p => p) demoFs
      (CacheManager.set (fun _ => "H") (fun p => p) demoFs demoCache
        1000 "docs/a.txt" 42) 4600 "copy/b.txt" = some 42 := by
  have h := C4_content_addressed_key (V := Nat) (fun _ => "H") (fun p => p)
    demoFs demoCache "docs/a.txt" "copy/b.txt" [7, 7] rfl rfl
  exact ⟨h.1.1, h.2.1 "gone.txt" rfl, h.2.2 42 1000 4600 rfl rfl (by decide)⟩

/-- **C7.** `DocumentCache` never raises across its public boundary:
`get`, `set`, `clear_expired`, `clear_all` and `get_stats` are total
result-returning functions; whatever I/O exception the backend raises
is caught. `get` degrades to a cache miss (`none`), `set` skips caching
(state unchanged), `clear_expired` and `clear_all` leave the state
unchanged, and `get_stats` reports zeroes with the error message. -/
theorem C7_cache_never_raises {V : Type} (sha256hex : List Nat → String)
    (md5hex : String → String) (fs : FileSystem) (cm : CacheManager V)
    (now : Int) (path : String) (v : V) :
    (cm.cache.failGet = true →
      CacheManager.get sha256hex md5hex fs cm now path = none) ∧
    (cm.cache.failSet = true →
      CacheManager.set sha256hex md5hex fs cm now path v = cm) ∧
    (cm.cache.failExpire = true → CacheManager.clear_expired cm now = cm) ∧
    (cm.cache.failClear = true → CacheManager.clear_all cm = cm) ∧
    (cm.cache.failStats = true →
      CacheManager.get_stats cm = { size := 0, error := some "disk I/O error" }) := by
  refine ⟨?_, ?_, ?_, ?_, ?_⟩ <;> intro hfail
  · simp [CacheManager.get, diskGet, hfail]
  · simp [CacheManager.set, diskSet, hfail]
  · simp [CacheManager.clear_expired, diskExpire, hfail]
  · simp [CacheManager.clear_all, diskClear, hfail]
  · simp [CacheManager.get_stats, hfail]

/-- A cache whose backend raises on every operation. -/
def demoBrokenCache : CacheManager Nat :=
  { cache := { entries := [("doc_k", 5, 99999)], failGet := true
               failSet := true, failExpire := true, failClear := true
               failStats := true }
    ttl_seconds := 3600 }

/-- **C7 witness**: on the all-faulty backend every public operation
returns its degraded default instead of raising. -/
theorem C7_cache_never_raises_witness :
    CacheManager.get (fun _ => "H") (fun p => p) demoFs demoBrokenCache
      0 "docs/a.txt" = none ∧
    CacheManager.set (fun _ => "H") (fun p => p) demoFs demoBrokenCache
      0 "docs/a.txt" 42 = demoBrokenCache ∧
    CacheManager.clear_expired demoBrokenCache 0 = demoBrokenCache ∧
    CacheManager.clear_all demoBrokenCache = demoBrokenCache ∧
    CacheManager.get_stats demoBrokenCache =
      { size := 0, error := some "disk I/O error" } := by
  have h := C7_cache_never_raises (fun _ => "H") (fun p => p) demoFs
    demoBrokenCache 0 "docs/a.txt" 42
  exact ⟨h.1 rfl, h.2.1 rfl, h.2.2.1 rfl, h.2.2.2.1 rfl, h.2.2.2.2 rfl⟩

/-! ## Theorems about the token stream bridge -/

/-- `chunkItems` with the enumeration index made explicit, for
induction. -/
def chunkItemsAux : Nat → List String → List StreamItem
  | _, [] => []
  | i, t :: ts =>
    (if 0 < i then [StreamItem.sep] else []) ++
      _create_token_chunk i t :: chunkItemsAux (i + 1) ts

/-- The enumerate-and-flatten form of the loop coincides with the
indexed recursion. -/
theorem chunkItems_eq_aux (ts : List String) :
    ∀ i, (List.enumFrom i ts).flatMap (fun p =>
      (if p.1 > 0 then [StreamItem.sep] else []) ++
        [_create_token_chunk p.1 p.2]) = chunkItemsAux i ts := by
  induction ts with
  | nil => intro i; rfl
  | cons t ts ih =>
    intro i
    simp [List.enumFrom_cons, chunkItemsAux, ih (i + 1)]

/-- `chunkItems` as the indexed recursion from index 0. -/
theorem chunkItems_eq (tokens : List String) :
    chunkItems tokens = chunkItemsAux 0 tokens :=
  chunkItems_eq_aux tokens 0

/-- The chunk records of the loop's output are exactly the enumerated
tokens with a null finish reason. -/
theorem chunksOf_chunkItemsAux (ts : List String) :
    ∀ i, chunksOf (chunkItemsAux i ts) =
      (List.enumFrom i ts).map (fun p => (p.1, p.2, (none : Option String))) := by
  induction ts with
  | nil => intro i; rfl
  | cons t ts ih =>
    intro i
    by_cases hi : 0 < i <;>
      simp [chunkItemsAux, chunksOf, chunkProj, _create_token_chunk,
        List.enumFrom_cons, hi, ih (i + 1)] <;>
      exact ih (i + 1)

/-- The loop's output contains no terminal record. -/
theorem terminalsOf_chunkItemsAux (ts : List String) :
    ∀ i, terminalsOf (chunkItemsAux i ts) = [] := by
  induction ts with
  | nil => intro i; rfl
  | cons t ts ih =>
    intro i
    have ihe : ∀ a ∈ chunkItemsAux (i + 1) ts, termProj a = none := by
      simpa [terminalsOf] using ih (i + 1)
    by_cases hi : 0 < i <;>
      simp [chunkItemsAux, terminalsOf, termProj, _create_token_chunk, hi,
        ihe] <;>
      exact ihe

/-- **C2.** On a producer emitting exactly the tokens of `tokens` and
completing normally, the bridge's chunk records are indices `0..N-1` in
generation order, each exactly once, each with a null per-chunk finish
reason; exactly one terminal record is emitted, carrying `"stop"`, and
it is the last item of the stream (in particular, for `N = 0` there are
no chunk records, only the terminal record). -/
theorem C2_stream_framing (stream_id : String) (tokens : List String) :
    chunksOf (create_token_generator stream_id tokens) =
      tokens.enum.map (fun p => (p.1, p.2, (none : Option String))) ∧
    terminalsOf (create_token_generator stream_id tokens) = ["stop"] ∧
    (create_token_generator stream_id tokens).getLast? =
      some (StreamItem.terminal "stop") := by
  refine ⟨?_, ?_, ?_⟩
  · rw [create_token_generator, chunkItems_eq]
    simp only [chunksOf, List.filterMap_cons, List.filterMap_append,
      List.filterMap_nil, List.append_nil, chunkProj]
    exact chunksOf_chunkItemsAux tokens 0
  · rw [create_token_generator, chunkItems_eq]
    simp only [terminalsOf, List.filterMap_cons, List.filterMap_append,
      List.filterMap_nil, termProj]
    have h := terminalsOf_chunkItemsAux tokens 0
    simp only [terminalsOf] at h
    rw [h]
    rfl
  · rw [create_token_generator,
      show StreamItem.opening stream_id :: chunkItems tokens ++
          [StreamItem.terminal "stop"] =
        (StreamItem.opening stream_id :: chunkItems tokens) ++
          [StreamItem.terminal "stop"] from rfl,
      List.getLast?_concat]

/-- Length of the loop's output: two items (separator and chunk) per
token when every index is positive. -/
theorem length_chunkItemsAux_pos (ts : List String) :
    ∀ i, 1 ≤ i → (chunkItemsAux i ts).length = 2 * ts.length := by
  induction ts with
  | nil => intro i _; rfl
  | cons t ts ih =>
    intro i hi
    have : 0 < i := hi
    simp [chunkItemsAux, this, ih (i + 1) (by omega)]
    omega

/-- Taking `2K` items from an all-positive-index segment takes exactly
the first `K` separator-chunk pairs. -/
theorem take_chunkItemsAux_pos (ts : List String) :
    ∀ K i, K ≤ ts.length → 1 ≤ i →
      (chunkItemsAux i ts).take (2 * K) = chunkItemsAux i (ts.take K) := by
  induction ts with
  | nil =>
    intro K i hK _
    simp only [List.length_nil] at hK
    have hK0 : K = 0 := by omega
    subst hK0
    rfl
  | cons t ts ih =>
    intro K i hK hi
    match K with
    | 0 => rfl
    | K + 1 =>
      have hpos : 0 < i := hi
      have hK' : K ≤ ts.length := by
        simp only [List.length_cons] at hK; omega
      rw [List.take_succ_cons]
      simp only [chunkItemsAux, if_pos hpos, List.singleton_append]
      rw [show 2 * (K + 1) = 2 * K + 1 + 1 from by omega]
      rw [List.take_succ_cons, List.take_succ_cons]
      rw [ih K (i + 1) hK' (by omega)]

/-- Taking `2K - 1` items from the whole loop output (whose first chunk
has no leading separator) takes exactly the output for the first `K`
tokens. -/
theorem take_chunkItemsAux_zero (t : String) (ts : List String) (K : Nat)
    (h1 : 1 ≤ K) (h2 : K ≤ ts.length + 1) :
    (chunkItemsAux 0 (t :: ts)).take (2 * K - 1) =
      chunkItemsAux 0 ((t :: ts).take K) := by
  match K, h1 with
  | K + 1, _ =>
    rw [List.take_succ_cons]
    simp only [chunkItemsAux, if_neg (Nat.lt_irrefl 0), List.nil_append]
    rw [show 2 * (K + 1) - 1 = 2 * K + 1 from by omega]
    rw [List.take_succ_cons]
    rw [take_chunkItemsAux_pos ts K 1 (by omega) (by omega)]

/-- Unfolding equation of `deliver` at a yield step. -/
theorem deliver_yield_cons (it : StreamItem) (inW : Bool)
    (rest : List GenStep) (m : Nat) (cur : Option Bool) :
    deliver (GenStep.yieldItem it inW :: rest) (m + 1) cur =
      (it :: (deliver rest m (some inW)).1, (deliver rest m (some inW)).2.1,
        (deliver rest m (some inW)).2.2) := by
  simp [deliver]

/-- Unfolding equation of `deliver` at an action step. -/
theorem deliver_act_cons (a : Action) (rest : List GenStep) (m : Nat)
    (cur : Option Bool) :
    deliver (GenStep.act a :: rest) (m + 1) cur =
      ((deliver rest (m + 1) cur).1, a :: (deliver rest (m + 1) cur).2.1,
        (deliver rest (m + 1) cur).2.2) := by
  simp [deliver]

/-- Lazy delivery through a run of yields: with `1 ≤ m ≤` the number of
yields, the consumer sees the first `m` items, no action runs, and the
generator is left suspended inside the run. -/
theorem deliver_yields (l : List StreamItem) :
    ∀ (inW : Bool) (rest : List GenStep) (m : Nat) (cur : Option Bool),
      1 ≤ m → m ≤ l.length →
      deliver (l.map (fun it => GenStep.yieldItem it inW) ++ rest) m cur =
        (l.take m, [], some inW) := by
  induction l with
  | nil =>
    intro inW rest m cur hm hml
    simp only [List.length_nil] at hml
    omega
  | cons it l ih =>
    intro inW rest m cur hm hml
    match m, hm with
    | 1, _ =>
      simp [deliver]
    | m + 2, _ =>
      have hrec := ih inW rest (m + 1) (some inW) (by omega)
        (by simp only [List.length_cons] at hml; omega)
      simp [deliver, hrec, List.take_succ_cons]

/-- Consuming only the opening item: the generation thread is never
started, and the generator is suspended outside the `with` block. -/
theorem deliver_script_one (stream_id : String) (tokens : List String) :
    deliver (generatorScript stream_id tokens) 1 none =
      ([StreamItem.opening stream_id], [], some false) := by
  simp [generatorScript, deliver]

/-- Consuming through the `K`-th chunk (`1 ≤ K ≤ N`): the consumer saw
the opening item and the loop output up to that chunk, only the
thread-start action has run, and the generator is suspended inside the
`with` block. -/
theorem deliver_script_pos (stream_id : String) (tokens : List String)
    (K : Nat) (h1 : 1 ≤ K) (h2 : K ≤ tokens.length) :
    deliver (generatorScript stream_id tokens) (2 * K) none =
      (StreamItem.opening stream_id :: (chunkItems tokens).take (2 * K - 1),
       [Action.startThread], some true) := by
  obtain ⟨t, ts, rfl⟩ : ∃ t ts, tokens = t :: ts := by
    cases tokens with
    | nil => simp only [List.length_nil] at h2; omega
    | cons t ts => exact ⟨t, ts, rfl⟩
  have hlen : 2 * K - 1 ≤ (chunkItems (t :: ts)).length := by
    rw [chunkItems_eq]
    simp only [chunkItemsAux, if_neg (Nat.lt_irrefl 0), List.nil_append,
      List.length_cons, length_chunkItemsAux_pos ts 1 (by omega)]
    simp only [List.length_cons] at h2
    omega
  have hy := deliver_yields (chunkItems (t :: ts)) true
    [GenStep.act (Action.joinThread GENERATION_THREAD_TIMEOUT),
     GenStep.yieldItem (StreamItem.terminal "stop") false]
    (2 * K - 1) (some false) (by omega) hlen
  obtain ⟨M, hM⟩ : ∃ M, 2 * K - 1 = M + 1 := ⟨2 * K - 2, by omega⟩
  rw [hM] at hy
  unfold generatorScript
  rw [show 2 * K = M + 1 + 1 from by omega]
  rw [deliver_yield_cons, deliver_act_cons, hy]
  rw [show M + 1 + 1 - 1 = M + 1 from by omega]

/-- **C6.** When the consumer cancels the stream after `K < N` tokens
(client disconnect closes the generator), the bridge emits no chunk
record beyond the first `K`, raises nothing to the caller, signals the
producer streamer to stop, and every thread join it performs uses the
bounded 1-second grace period (after which the thread is simply
abandoned); no terminal record is emitted either. -/
theorem C6_cancellation (stream_id : String) (tokens : List String)
    (K : Nat) (hK : K < tokens.length) :
    chunksOf (run_cancelled stream_id tokens
        (itemsConsumedForTokens K)).emitted =
      (tokens.take K).enum.map (fun p => (p.1, p.2, (none : Option String))) ∧
    (run_cancelled stream_id tokens (itemsConsumedForTokens K)).raised
      = none ∧
    Action.stopStreamer ∈
      (run_cancelled stream_id tokens (itemsConsumedForTokens K)).actions ∧
    (∀ t, Action.joinThread t ∈
        (run_cancelled stream_id tokens (itemsConsumedForTokens K)).actions →
      t = GENERATION_THREAD_TIMEOUT) ∧
    terminalsOf (run_cancelled stream_id tokens
        (itemsConsumedForTokens K)).emitted = [] := by
  by_cases hK0 : K = 0
  · subst hK0
    have hrun : run_cancelled stream_id tokens (itemsConsumedForTokens 0) =
        { emitted := [StreamItem.opening stream_id]
          actions := [Action.logDisconnect, Action.stopStreamer]
          raised := none } := by
      unfold run_cancelled itemsConsumedForTokens
      rw [if_pos rfl, deliver_script_one]
      rfl
    rw [hrun]
    refine ⟨rfl, rfl, by simp, ?_, rfl⟩
    intro t ht
    simp at ht
  · have h1 : 1 ≤ K := Nat.one_le_iff_ne_zero.mpr hK0
    obtain ⟨t, ts, rfl⟩ : ∃ t ts, tokens = t :: ts := by
      cases tokens with
      | nil => simp only [List.length_nil] at hK; omega
      | cons t ts => exact ⟨t, ts, rfl⟩
    have htake : (chunkItems (t :: ts)).take (2 * K - 1) =
        chunkItems ((t :: ts).take K) := by
      rw [chunkItems_eq, chunkItems_eq]
      exact take_chunkItemsAux_zero t ts K h1
        (by simp only [List.length_cons] at hK; omega)
    have hrun : run_cancelled stream_id (t :: ts) (itemsConsumedForTokens K) =
        { emitted := StreamItem.opening stream_id ::
            chunkItems ((t :: ts).take K)
          actions := [Action.startThread,
            Action.joinThread GENERATION_THREAD_TIMEOUT,
            Action.logDisconnect, Action.stopStreamer]
          raised := none } := by
      unfold run_cancelled itemsConsumedForTokens
      rw [if_neg hK0, deliver_script_pos stream_id (t :: ts) K h1 hK.le,
        htake]
      rfl
    rw [hrun]
    refine ⟨?_, rfl, by simp, ?_, ?_⟩
    · show chunksOf (StreamItem.opening stream_id ::
        chunkItems ((t :: ts).take K)) = _
      rw [chunkItems_eq]
      simp only [chunksOf, List.filterMap_cons, chunkProj]
      exact chunksOf_chunkItemsAux ((t :: ts).take K) 0
    · intro u hu
      simp only [List.mem_cons, List.not_mem_nil, or_false] at hu
      rcases hu with h | h | h | h
      · exact absurd h (by simp)
      · injection h with h'
      · exact absurd h (by simp)
      · exact absurd h (by simp)
    · show terminalsOf (StreamItem.opening stream_id ::
        chunkItems ((t :: ts).take K)) = _
      rw [chunkItems_eq]
      simp only [terminalsOf, List.filterMap_cons, termProj]
      exact terminalsOf_chunkItemsAux ((t :: ts).take K) 0

/-- **C6 witness**: cancelling after 2 of 3 tokens emits exactly chunks
0 and 1, raises nothing, stops the streamer, and joins with the
1-second bound. -/
theorem C6_cancellation_witness :
    chunksOf (run_cancelled "s" ["a", "b", "c"]
        (itemsConsumedForTokens 2)).emitted =
      [(0, "a", none), (1, "b", none)] ∧
    (run_cancelled "s" ["a", "b", "c"] (itemsConsumedForTokens 2)).raised
      = none ∧
    Action.stopStreamer ∈
      (run_cancelled "s" ["a", "b", "c"] (itemsConsumedForTokens 2)).actions := by
  have h := C6_cancellation "s" ["a", "b", "c"] 2 (by decide)
  exact ⟨by rw [h.1]; rfl, h.2.1, h.2.2.1⟩

end LocalAssistant
